import Mathlib

/-!
Shallow embedding of the core logic of the microcli repository
(src/microcli.py and src/utils.py): answer normalization and matching,
random task selection, progress/streak updating, and the reset state.

Modelling conventions:
* Python strings are modelled as `List Char` (`Str`); the Python methods
  `str.strip()` and `str.lower()` become `pyStrip` and `pyLower`.
* Calendar date strings in the canonical `YYYY-MM-DD` form produced by
  `get_today()` are in bijection with ordinal day numbers, so dates are
  modelled as `Int` day ordinals: string equality of two canonical date
  strings is `Int` equality, and `(today_dt - last_dt).days` is `Int`
  subtraction.
* Python dicts (`completed_tasks`, `category_stats`) are modelled as
  insertion-ordered association lists: assignment `m[k] = v` replaces the
  value in place when the key is present and appends otherwise
  (`dictSet`), lookup is `dictLookup`.
* Python integers are modelled as `Int`.
* The call to `random.choice(available)` is modelled by an explicit
  `choice : Nat` parameter selecting index `choice % available.length`;
  every index of `available` is reachable this way.
-/

/-- Python strings, modelled as lists of characters. -/
abbrev Str := List Char

/-- Python `str.strip()` with no argument: drop leading and trailing
whitespace characters. -/
def pyStrip (s : Str) : Str :=
  ((s.dropWhile Char.isWhitespace).reverse.dropWhile Char.isWhitespace).reverse

/-- Python `str.lower()`: lowercase every character. -/
def pyLower (s : Str) : Str := s.map Char.toLower

namespace Microcli

/-- A task record from the catalog (tasks.json), as consumed by the core
functions: `id`, `category`, `question`, `answer` are strings, `options`
and `explanation` are optional (`task.get` returns `None` when absent). -/
structure Task where
  id : Str
  category : Str
  question : Str
  answer : Str
  options : Option (List Str)
  explanation : Option Str
deriving DecidableEq

/-- The persisted progress record (progress.json), with the fields that
`get_progress` guarantees to be present. `last_solved_date` is a date
ordinal or `none` (Python `None`). -/
structure ProgressState where
  total_solved : Int
  streak_days : Int
  last_solved_date : Option Int
  completed_tasks : List (Str × Int)
  category_stats : List (Str × Int)
deriving DecidableEq

/-- Python dict lookup `m.get(k)` on an insertion-ordered association
list: the value at the first (and, for a genuine dict, only) entry whose
key equals `k`, or `none`. -/
def dictLookup (m : List (Str × Int)) (k : Str) : Option Int :=
  (m.find? (fun p => p.1 == k)).map Prod.snd

/-- Python dict assignment `m[k] = v` on an insertion-ordered association
list: if the key is present, its value is replaced in place (keeping the
position in the insertion order); otherwise the pair is appended. -/
def dictSet (m : List (Str × Int)) (k : Str) (v : Int) : List (Str × Int) :=
  if m.any (fun p => p.1 == k) then
    m.map (fun p => if p.1 == k then (k, v) else p)
  else m ++ [(k, v)]

/-- The sum of the values of an association list, used for the
category-stats counting invariant. -/
def sumValues (m : List (Str × Int)) : Int := (m.map Prod.snd).sum

/-- `normalize_answer` from src/microcli.py lines 94-96:
`return answer.strip().lower()`. -/
def normalize_answer (answer : Str) : Str := pyLower (pyStrip answer)

/-- `check_answer` from src/microcli.py lines 99-112. The Python guard
`if options:` is falsy for both `None` and the empty list; for an empty
list the `for` loop finds nothing and the function falls through to
`return False`, which coincides with `List.any` of the empty list. -/
def check_answer (user_answer correct_answer : Str) (options : Option (List Str)) : Bool :=
  let user := normalize_answer user_answer
  let correct := normalize_answer correct_answer
  if user == correct then true
  else
    match options with
    | none => false
    | some opts => opts.any (fun opt => normalize_answer opt == correct)

end Microcli

namespace Utils

/-- `normalize_answer` from src/utils.py lines 53-55, textually identical
to the one in src/microcli.py. -/
def normalize_answer (answer : Str) : Str := pyLower (pyStrip answer)

/-- `check_answer` from src/utils.py lines 58-75. The comprehension
`normalized_options = {normalize_answer(opt): i for i, opt in enumerate(options)}`
followed by `user in normalized_options` and
`normalized_options.get(correct) is not None` tests membership of the
normalized user text and of the normalized correct text among the
normalized options; duplicate normalized options collapse in the dict but
membership is unaffected. -/
def check_answer (user_answer correct_answer : Str) (options : Option (List Str)) : Bool :=
  let user := normalize_answer user_answer
  let correct := normalize_answer correct_answer
  if user == correct then true
  else
    match options with
    | none => false
    | some opts =>
        (opts.any (fun opt => normalize_answer opt == user)) &&
        (opts.any (fun opt => normalize_answer opt == correct))

end Utils

namespace Microcli

/-- `get_random_task` from src/microcli.py lines 115-121 (the copy in
src/utils.py lines 78-84 is textually identical). The uniform random
draw `random.choice(available)` is modelled by the explicit index
`choice % available.length`. -/
def get_random_task (completed_ids : List Str) (tasks : List Task) (choice : Nat) :
    Option Task :=
  let available := tasks.filter (fun t => !(completed_ids.contains t.id))
  if h : available = [] then none
  else some (available.get ⟨choice % available.length, Nat.mod_lt _ (List.length_pos.mpr h)⟩)

/-- `update_progress` from src/microcli.py lines 124-152. The `lang`
argument of the Python function is unused by it and omitted here; the
internal call `today = get_today()` is modelled by passing `today`
explicitly as a date ordinal. -/
def update_progress (progress : ProgressState) (task : Task) (today : Int) : ProgressState :=
  let last_date := progress.last_solved_date
  let streak :=
    if last_date ≠ some today then
      match last_date with
      | some last_dt => if today - last_dt = 1 then progress.streak_days + 1 else 1
      | none => 1
    else progress.streak_days
  let stats0 := progress.category_stats
  let stats1 :=
    if (dictLookup stats0 task.category).isNone then dictSet stats0 task.category 0
    else stats0
  let stats2 := dictSet stats1 task.category ((dictLookup stats1 task.category).getD 0 + 1)
  { total_solved := progress.total_solved + 1
    streak_days := streak
    last_solved_date := some today
    completed_tasks := dictSet progress.completed_tasks task.id today
    category_stats := stats2 }

/-- `default_progress` as constructed inside `cmd_reset` in
src/microcli.py lines 319-331: a constant record built with no input from
the previously persisted state, with the five known category labels
pre-seeded at zero. -/
def default_progress : ProgressState :=
  { total_solved := 0
    streak_days := 0
    last_solved_date := none
    completed_tasks := []
    category_stats :=
      [("Логика".toList, 0), ("Математика".toList, 0), ("Программирование".toList, 0),
       ("Языки".toList, 0), ("Общие знания".toList, 0)] }

end Microcli

namespace Microcli

/-! Helper lemmas about the dict model. -/

lemma dictLookup_cons (a : Str × Int) (m : List (Str × Int)) (k : Str) :
    dictLookup (a :: m) k = if a.1 = k then some a.2 else dictLookup m k := by
  by_cases h : a.1 = k <;> simp [dictLookup, List.find?_cons, h]

lemma dictLookup_eq_none_iff (m : List (Str × Int)) (k : Str) :
    dictLookup m k = none ↔ ∀ p ∈ m, p.1 ≠ k := by
  simp [dictLookup, List.find?_eq_none]

lemma any_key_of_dictLookup_some (m : List (Str × Int)) (k : Str) (w : Int)
    (h : dictLookup m k = some w) : m.any (fun p => p.1 == k) = true := by
  rw [dictLookup, Option.map_eq_some'] at h
  obtain ⟨p, hp, _⟩ := h
  have hmem := List.mem_of_find?_eq_some hp
  have hpk := List.find?_some hp
  exact List.any_eq_true.mpr ⟨p, hmem, hpk⟩

lemma dictSet_eq_append (m : List (Str × Int)) (k : Str) (v : Int)
    (h : dictLookup m k = none) : dictSet m k v = m ++ [(k, v)] := by
  have hany : m.any (fun p => p.1 == k) = false := by
    rw [List.any_eq_false]
    intro p hp
    simpa using (dictLookup_eq_none_iff m k).mp h p hp
  simp [dictSet, hany]

lemma map_update_of_absent (m : List (Str × Int)) (k : Str) (v : Int)
    (h : ∀ p ∈ m, p.1 ≠ k) :
    m.map (fun p => if p.1 == k then (k, v) else p) = m := by
  induction m with
  | nil => rfl
  | cons a rest ih =>
    have ha : (a.1 == k) = false := by simpa using h a (by simp)
    simp only [List.map_cons, ha, Bool.false_eq_true, if_false]
    rw [ih (fun p hp => h p (by simp [hp]))]

lemma dictLookup_append_single (m : List (Str × Int)) (k : Str) (v : Int)
    (h : ∀ p ∈ m, p.1 ≠ k) :
    dictLookup (m ++ [(k, v)]) k = some v := by
  induction m with
  | nil => simp [dictLookup_cons]
  | cons a rest ih =>
    rw [List.cons_append, dictLookup_cons, if_neg (h a (by simp))]
    exact ih (fun p hp => h p (by simp [hp]))

lemma dictLookup_map_update (m : List (Str × Int)) (k : Str) (v : Int)
    (h : m.any (fun p => p.1 == k) = true) :
    dictLookup (m.map (fun p => if p.1 == k then (k, v) else p)) k = some v := by
  induction m with
  | nil => simp at h
  | cons a rest ih =>
    by_cases hak : a.1 = k
    · have : (a.1 == k) = true := by simpa using hak
      simp only [List.map_cons, this, if_true, dictLookup_cons, if_pos rfl]
    · have ha : (a.1 == k) = false := by simpa using hak
      have hrest : rest.any (fun p => p.1 == k) = true := by
        rcases List.any_eq_true.mp h with ⟨p, hp, hpk⟩
        rcases List.mem_cons.mp hp with rfl | hp
        · exact absurd hpk (by simp [ha])
        · exact List.any_eq_true.mpr ⟨p, hp, hpk⟩
      simp only [List.map_cons, ha, Bool.false_eq_true, if_false, dictLookup_cons,
        if_neg hak]
      exact ih hrest

lemma dictLookup_dictSet_self (m : List (Str × Int)) (k : Str) (v : Int) :
    dictLookup (dictSet m k v) k = some v := by
  by_cases h : m.any (fun p => p.1 == k) = true
  · rw [dictSet, if_pos h]
    exact dictLookup_map_update m k v h
  · rw [dictSet, if_neg h]
    refine dictLookup_append_single m k v ?_
    intro p hp
    have := List.any_eq_false.mp (Bool.eq_false_iff.mpr h) p hp
    simpa using this

lemma dictSet_append_self (m : List (Str × Int)) (k : Str) (w v : Int)
    (h : ∀ p ∈ m, p.1 ≠ k) :
    dictSet (m ++ [(k, w)]) k v = m ++ [(k, v)] := by
  have hany : (m ++ [(k, w)]).any (fun p => p.1 == k) = true := by
    refine List.any_eq_true.mpr ⟨(k, w), by simp, by simp⟩
  rw [dictSet, if_pos hany, List.map_append, map_update_of_absent m k v h]
  simp

lemma sumValues_cons (a : Str × Int) (m : List (Str × Int)) :
    sumValues (a :: m) = a.2 + sumValues m := by
  simp [sumValues]

lemma sumValues_append_single (m : List (Str × Int)) (k : Str) (v : Int) :
    sumValues (m ++ [(k, v)]) = sumValues m + v := by
  simp [sumValues]

lemma sumValues_dictSet_of_some (m : List (Str × Int)) (k : Str) (v w : Int)
    (hnd : (m.map Prod.fst).Nodup) (h : dictLookup m k = some w) :
    sumValues (dictSet m k v) = sumValues m - w + v := by
  induction m with
  | nil => simp [dictLookup] at h
  | cons a rest ih =>
    rw [dictLookup_cons] at h
    rw [List.map_cons, List.nodup_cons] at hnd
    by_cases hak : a.1 = k
    · rw [if_pos hak] at h
      have hw : a.2 = w := by injection h
      have hbeq : (a.1 == k) = true := by simpa using hak
      have hany : (a :: rest).any (fun p => p.1 == k) = true := by
        exact List.any_eq_true.mpr ⟨a, by simp, hbeq⟩
      have hrest : ∀ p ∈ rest, p.1 ≠ k := by
        intro p hp hpk
        exact hnd.1 (by rw [hak, ← hpk]; exact List.mem_map_of_mem Prod.fst hp)
      rw [dictSet, if_pos hany, List.map_cons]
      simp only [hbeq, if_true]
      rw [map_update_of_absent rest k v hrest, sumValues_cons, sumValues_cons, ← hw]
      ring
    · rw [if_neg hak] at h
      have hrest_any : rest.any (fun p => p.1 == k) = true :=
        any_key_of_dictLookup_some rest k w h
      have ha : (a.1 == k) = false := by simpa using hak
      have hany : (a :: rest).any (fun p => p.1 == k) = true := by
        rcases List.any_eq_true.mp hrest_any with ⟨p, hp, hpk⟩
        exact List.any_eq_true.mpr ⟨p, by simp [hp], hpk⟩
      have hstep : dictSet (a :: rest) k v = a :: dictSet rest k v := by
        rw [dictSet, if_pos hany, dictSet, if_pos hrest_any, List.map_cons]
        simp [ha]
      rw [hstep, sumValues_cons, sumValues_cons, ih hnd.2 h]
      ring

end Microcli

open Microcli

/-- Identifying the two textually identical copies of
`normalize_answer` (src/utils.py and src/microcli.py). -/
lemma utils_normalize_answer_eq (s : Str) :
    Utils.normalize_answer s = normalize_answer s := rfl

/-- A sample catalog task with id t1, used to instantiate the
universally quantified theorems at concrete inputs. -/
def taskA : Task :=
  { id := "t1".toList, category := "c".toList, question := "q".toList,
    answer := "a".toList, options := none, explanation := none }

/-- A second sample catalog task with id t2. -/
def taskB : Task :=
  { id := "t2".toList, category := "c".toList, question := "q2".toList,
    answer := "b".toList, options := none, explanation := none }

/-- Claim C1: behavior of the answer checkers at the failing input. With
options = ["Paris", "London"] and answer = "Paris", both implementations
accept the submission "london", which equals the incorrect option after
normalization (the specification requires it to be rejected: in
src/microcli.py the loop condition normalize_answer(opt) == correct never
consults the submitted text, and in src/utils.py membership of the
submission among the options suffices once the canonical answer is also
an option). The submission "PARIS" is accepted as the specification
states. -/
theorem check_answer_wrong_option_accepted :
    check_answer "london".toList "Paris".toList
      (some ["Paris".toList, "London".toList]) = true ∧
    Utils.check_answer "london".toList "Paris".toList
      (some ["Paris".toList, "London".toList]) = true ∧
    check_answer "PARIS".toList "Paris".toList
      (some ["Paris".toList, "London".toList]) = true ∧
    Utils.check_answer "PARIS".toList "Paris".toList
      (some ["Paris".toList, "London".toList]) = true := by
  exact ⟨by decide, by decide, by decide, by decide⟩

/-- Claim C8: check_answer accepts every submission whose normalization
(strip surrounding whitespace, then lowercase) agrees with the
normalization of the canonical answer; a submission differing from the
answer only in letter case and/or leading or trailing whitespace has the
same normalization, so check_answer is invariant under those changes to
the submitted string. -/
theorem check_answer_normalization_invariant (sub ans : Str) (opts : Option (List Str))
    (h : normalize_answer sub = normalize_answer ans) :
    check_answer sub ans opts = true := by
  simp [check_answer, h]

/-- Witness for claim C8 at the concrete pair from the specification. -/
theorem check_answer_normalization_invariant_witness :
    check_answer "  Paris ".toList "paris".toList none = true :=
  check_answer_normalization_invariant "  Paris ".toList "paris".toList none (by decide)

/-- Claim C9: the state built by cmd_reset is a constant construction,
taking no input from any previously persisted state, whose total_solved
is 0, whose last_solved_date is absent and whose completion log is
empty. -/
theorem default_progress_fresh :
    default_progress.total_solved = 0 ∧
    default_progress.last_solved_date = none ∧
    default_progress.completed_tasks = [] :=
  ⟨rfl, rfl, rfl⟩

/-- Claim C10 counterexample: the two implementations of check_answer are
not extensionally equal. For the submission "xyz" with answer "Paris" and
options ["Paris", "London"], the src/microcli.py version returns true
while the src/utils.py version returns false. -/
theorem check_answer_versions_differ :
    check_answer "xyz".toList "Paris".toList
      (some ["Paris".toList, "London".toList]) = true ∧
    Utils.check_answer "xyz".toList "Paris".toList
      (some ["Paris".toList, "London".toList]) = false := by
  exact ⟨by decide, by decide⟩

/-- Claim C10 as amended: the equivalence holds in one direction only.
Whenever the src/utils.py check_answer accepts a submission, the
src/microcli.py check_answer accepts it as well. -/
theorem utils_check_answer_imp_check_answer (u c : Str) (opts : Option (List Str))
    (h : Utils.check_answer u c opts = true) :
    check_answer u c opts = true := by
  simp only [Utils.check_answer, utils_normalize_answer_eq] at h
  simp only [check_answer]
  by_cases heq : (normalize_answer u == normalize_answer c) = true
  · simp [heq]
  · rw [if_neg heq] at h
    rw [if_neg heq]
    cases opts with
    | none => exact h
    | some l =>
      rw [Bool.and_eq_true] at h
      exact h.2

/-- Witness for the amended claim C10 at a concrete input accepted by
both implementations. -/
theorem utils_check_answer_imp_check_answer_witness :
    check_answer "LONDON".toList "Paris".toList
      (some ["Paris".toList, "London".toList]) = true :=
  utils_check_answer_imp_check_answer "LONDON".toList "Paris".toList
    (some ["Paris".toList, "London".toList]) (by decide)

/-- Claim C2: for every catalog, completed-id list and random choice,
get_random_task never returns a task whose id is among the completed ids,
and it returns none exactly when every task id of the catalog is among
the completed ids. -/
theorem get_random_task_spec (completed_ids : List Str) (tasks : List Task) (choice : Nat) :
    (∀ t, get_random_task completed_ids tasks choice = some t → t.id ∉ completed_ids) ∧
    (get_random_task completed_ids tasks choice = none ↔
      ∀ t ∈ tasks, t.id ∈ completed_ids) := by
  simp only [get_random_task]
  by_cases h : tasks.filter (fun t => !(completed_ids.contains t.id)) = []
  · rw [dif_pos h]
    refine ⟨fun t ht => Option.noConfusion ht, ?_⟩
    simp only [true_iff]
    intro t ht
    have := List.filter_eq_nil_iff.mp h t ht
    simpa using this
  · rw [dif_neg h]
    constructor
    · intro t ht
      have hmem : t ∈ tasks.filter (fun t => !(completed_ids.contains t.id)) := by
        rw [← Option.some.inj ht]
        exact List.get_mem _ _ _
      have := (List.mem_filter.mp hmem).2
      simpa using this
    · constructor
      · intro hc
        exact Option.noConfusion hc
      · intro hall
        exact absurd (List.filter_eq_nil_iff.mpr (by simpa using hall)) h

/-- Witness for claim C2: with catalog [taskA, taskB] and completed list
["t1"], the selected task is taskB, whose id is not among the completed
ids. -/
theorem get_random_task_spec_witness :
    taskB.id ∉ ["t1".toList] :=
  (get_random_task_spec ["t1".toList] [taskA, taskB] 0).1 taskB (by decide)

/-- A sample prior state with streak_days = 5 and last_solved_date at day
10, one day before day 11 and two days before day 12. -/
def progress_streak5 : ProgressState :=
  { total_solved := 3, streak_days := 5, last_solved_date := some 10,
    completed_tasks := [], category_stats := [] }

/-- Claim C3: when the stored last_solved_date is strictly before today,
update_progress increments streak_days by one when the difference is
exactly one day and resets it to one when the difference is more than one
day. -/
theorem update_progress_streak_prior_day (p : ProgressState) (t : Task) (l today : Int)
    (hl : p.last_solved_date = some l) (hlt : l < today) :
    (today - l = 1 → (update_progress p t today).streak_days = p.streak_days + 1) ∧
    (1 < today - l → (update_progress p t today).streak_days = 1) := by
  have hne : l ≠ today := by omega
  constructor
  · intro hd
    simp [update_progress, hl, hne, hd]
  · intro hd
    have hd1 : ¬(today - l = 1) := by omega
    simp [update_progress, hl, hne, hd1]

/-- Witness for claim C3: from streak 5 solved on day 10, solving on day
11 gives streak 6 and solving on day 12 gives streak 1. -/
theorem update_progress_streak_prior_day_witness :
    (update_progress progress_streak5 taskA 11).streak_days = 5 + 1 ∧
    (update_progress progress_streak5 taskA 12).streak_days = 1 :=
  ⟨(update_progress_streak_prior_day progress_streak5 taskA 10 11 rfl (by decide)).1
      (by decide),
   (update_progress_streak_prior_day progress_streak5 taskA 10 12 rfl (by decide)).2
      (by decide)⟩

/-- A sample prior state whose last_solved_date (day 12) lies strictly
after the day 11 passed as today. -/
def progress_future : ProgressState :=
  { total_solved := 3, streak_days := 5, last_solved_date := some 12,
    completed_tasks := [], category_stats := [] }

/-- Claim C4 counterexample: with last_solved_date at day 12, streak_days
= 5 and today = day 11 (a date strictly after today), update_progress
resets streak_days to 1 instead of leaving it unchanged at 5 as the claim
states. -/
theorem update_progress_future_counterexample :
    progress_future.streak_days = 5 ∧
    (update_progress progress_future taskA 11).streak_days = 1 ∧
    (update_progress progress_future taskA 11).streak_days ≠ progress_future.streak_days := by
  exact ⟨rfl, by decide, by decide⟩

/-- Claim C4 as amended: when the stored last_solved_date is strictly
after today, update_progress falls into the streak-broken branch (the day
difference is negative, hence not 1) and resets streak_days to 1, rather
than treating the situation as the same-day case. -/
theorem update_progress_streak_future_date (p : ProgressState) (t : Task) (l today : Int)
    (hl : p.last_solved_date = some l) (hgt : today < l) :
    (update_progress p t today).streak_days = 1 := by
  have hne : l ≠ today := by omega
  have hd1 : ¬(today - l = 1) := by omega
  simp [update_progress, hl, hne, hd1]

/-- Witness for the amended claim C4. -/
theorem update_progress_streak_future_date_witness :
    (update_progress progress_future taskA 11).streak_days = 1 :=
  update_progress_streak_future_date progress_future taskA 12 11 rfl (by decide)

/-- A sample prior state already solved today (day 11). -/
def progress_today : ProgressState :=
  { total_solved := 3, streak_days := 4, last_solved_date := some 11,
    completed_tasks := [], category_stats := [] }

/-- Claim C5: a second correct solve on the same calendar day leaves
streak_days unchanged, while the counters and the date fields are still
updated. -/
theorem update_progress_same_day (p : ProgressState) (t : Task) (today : Int)
    (h : p.last_solved_date = some today) :
    (update_progress p t today).streak_days = p.streak_days ∧
    (update_progress p t today).total_solved = p.total_solved + 1 ∧
    (update_progress p t today).last_solved_date = some today := by
  refine ⟨?_, rfl, rfl⟩
  simp [update_progress, h]

/-- Witness for claim C5. -/
theorem update_progress_same_day_witness :
    (update_progress progress_today taskA 11).streak_days = 4 ∧
    (update_progress progress_today taskA 11).total_solved = 3 + 1 ∧
    (update_progress progress_today taskA 11).last_solved_date = some 11 :=
  update_progress_same_day progress_today taskA 11 rfl

/-- Claim C6: on every correct solve, regardless of the streak branch,
update_progress increments total_solved by one, records today under the
task id in completed_tasks, increments the category counter (from 0 when
the category was absent) and sets last_solved_date to today. -/
theorem update_progress_counters (p : ProgressState) (t : Task) (today : Int) :
    (update_progress p t today).total_solved = p.total_solved + 1 ∧
    dictLookup (update_progress p t today).completed_tasks t.id = some today ∧
    dictLookup (update_progress p t today).category_stats t.category =
      some ((dictLookup p.category_stats t.category).getD 0 + 1) ∧
    (update_progress p t today).last_solved_date = some today := by
  refine ⟨rfl, dictLookup_dictSet_self _ _ _, ?_, rfl⟩
  simp only [update_progress]
  rw [dictLookup_dictSet_self]
  cases hc : dictLookup p.category_stats t.category with
  | none => simp [hc, dictLookup_dictSet_self]
  | some w => simp [hc]

/-- The counting invariants of the progress record: total_solved equals
the number of entries of the completion log, and the category counters
sum to total_solved. -/
abbrev ProgressInvariant (p : ProgressState) : Prop :=
  p.total_solved = (p.completed_tasks.length : Int) ∧
  sumValues p.category_stats = p.total_solved

/-- Claim C7: update_progress preserves the counting invariants for every
task whose id is not yet in the completion log. The hypothesis that the
category keys are pairwise distinct encodes that category_stats is a
Python dict, whose keys are unique by construction. -/
theorem update_progress_preserves_invariant (p : ProgressState) (t : Task) (today : Int)
    (hinv : ProgressInvariant p)
    (hfresh : dictLookup p.completed_tasks t.id = none)
    (hkeys : (p.category_stats.map Prod.fst).Nodup) :
    ProgressInvariant (update_progress p t today) := by
  obtain ⟨h1, h2⟩ := hinv
  constructor
  · show p.total_solved + 1 = ((dictSet p.completed_tasks t.id today).length : Int)
    rw [dictSet_eq_append _ _ _ hfresh]
    simp only [List.length_append, List.length_cons, List.length_nil]
    push_cast
    omega
  · simp only [update_progress]
    cases hc : dictLookup p.category_stats t.category with
    | none =>
      have habs := (dictLookup_eq_none_iff _ _).mp hc
      simp only [Option.isNone_none, if_true]
      rw [dictSet_eq_append _ _ _ hc, dictLookup_append_single _ _ _ habs,
        dictSet_append_self _ _ _ _ habs, sumValues_append_single]
      simp only [Option.getD_some]
      omega
    | some w =>
      simp only [Option.isNone_some, Bool.false_eq_true, if_false]
      rw [hc, sumValues_dictSet_of_some _ _ _ w hkeys hc]
      simp only [Option.getD_some]
      omega

/-- A sample state satisfying the counting invariants, with one completed
task and one category counter. -/
def progress_inv_sample : ProgressState :=
  { total_solved := 1, streak_days := 1, last_solved_date := some 10,
    completed_tasks := [("t1".toList, 10)], category_stats := [("c".toList, 1)] }

/-- Witness for claim C7: solving the fresh task t2 on day 20 preserves
the invariants. -/
theorem update_progress_preserves_invariant_witness :
    ProgressInvariant (update_progress progress_inv_sample taskB 20) :=
  update_progress_preserves_invariant progress_inv_sample taskB 20
    (by exact ⟨by decide, by decide⟩) (by decide) (by decide)
